import Mathlib

/-!
# Verification of the APOD image-cache core (`apod_desktop.py`)

A shallow embedding, in Lean 4, of the content-addressed image cache of
`apod_desktop.py`: the content hasher (SHA-256 over raw bytes), the filename
sanitizer (`determine_apod_file_path`), the persisted index operations
(`add_apod_to_db`, `get_apod_id_from_db`, `get_apod_info`), the cache-store
orchestration (`add_apod_to_cache`), the date validation (`get_apod_date`)
and the daily resolution flow (`main`).

Modelling conventions:
* Python `bytes` values become `List Nat` (each entry a byte value).
* The SQLite table `image_data` becomes a list of `ImageRecord` in insertion
  order; `INTEGER PRIMARY KEY` rowid assignment becomes `nextId` (one more
  than the largest existing id, so ids start at 1 on an empty table), and
  `cursor.lastrowid` is the id just assigned.
* The cache directory on disk becomes an association list from path to bytes.
* External collaborators (`apod_api.get_apod_info`, `requests.get`,
  `image_lib.save_image_file`) are modelled by an environment record carrying
  their outcomes for the run; the body of `add_apod_to_cache` is translated
  statement by statement against that environment.
* A raised-and-uncaught Python exception becomes an `Except.error`.
-/

/-! ## Content hasher: SHA-256 (FIPS 180-4), as used via `hashlib.sha256(...).hexdigest()`

Bytes are `Nat` values below 256; 32-bit words are `Nat` reduced by `% 2^32`.
-/

/-- Reduce a natural number to a 32-bit word. -/
def w32 (x : Nat) : Nat := x % 4294967296

/-- Rotate a 32-bit word right by `n` bits. -/
def rotr32 (n x : Nat) : Nat := w32 ((x >>> n) ||| (x <<< (32 - n)))

/-- The 64 SHA-256 round constants. -/
def sha256K : List Nat :=
  [1116352408, 1899447441, 3049323471, 3921009573, 961987163, 1508970993,
   2453635748, 2870763221, 3624381080, 310598401, 607225278, 1426881987,
   1925078388, 2162078206, 2614888103, 3248222580, 3835390401, 4022224774,
   264347078, 604807628, 770255983, 1249150122, 1555081692, 1996064986,
   2554220882, 2821834349, 2952996808, 3210313671, 3336571891, 3584528711,
   113926993, 338241895, 666307205, 773529912, 1294757372, 1396182291,
   1695183700, 1986661051, 2177026350, 2456956037, 2730485921, 2820302411,
   3259730800, 3345764771, 3516065817, 3600352804, 4094571909, 275423344,
   430227734, 506948616, 659060556, 883997877, 958139571, 1322822218,
   1537002063, 1747873779, 1955562222, 2024104815, 2227730452, 2361852424,
   2428436474, 2756734187, 3204031479, 3329325298]

/-- The SHA-256 initial hash value. -/
def sha256H0 : List Nat :=
  [1779033703, 3144134277, 1013904242, 2773480762,
   1359893119, 2600822924, 528734635, 1541459225]

/-- Merkle–Damgård padding: append `0x80`, zeros to 56 mod 64, then the
big-endian 8-byte bit length of the message. -/
def sha256pad (msg : List Nat) : List Nat :=
  let L := msg.length
  let k := (119 - L % 64) % 64
  let lenBytes := (List.range 8).map (fun i => ((L * 8) >>> (56 - 8 * i)) % 256)
  msg ++ [0x80] ++ List.replicate k 0 ++ lenBytes

/-- Split a padded message into its 64-byte blocks. -/
def sha256blocks (padded : List Nat) : List (List Nat) :=
  (List.range (padded.length / 64)).map (fun i => (padded.drop (64 * i)).take 64)

/-- The `i`-th big-endian 32-bit word of a 64-byte block. -/
def blockWord (block : List Nat) (i : Nat) : Nat :=
  block.getD (4 * i) 0 * 16777216 + block.getD (4 * i + 1) 0 * 65536 +
    block.getD (4 * i + 2) 0 * 256 + block.getD (4 * i + 3) 0

/-- The 64-entry message schedule of a block. -/
def sha256schedule (block : List Nat) : Array Nat :=
  let w0 : Array Nat := (Array.range 16).map (blockWord block)
  (List.range 48).foldl
    (fun w j =>
      let i := j + 16
      let x15 := w.getD (i - 15) 0
      let x2 := w.getD (i - 2) 0
      let s0 := (rotr32 7 x15) ^^^ (rotr32 18 x15) ^^^ (x15 >>> 3)
      let s1 := (rotr32 17 x2) ^^^ (rotr32 19 x2) ^^^ (x2 >>> 10)
      w.push (w32 (w.getD (i - 16) 0 + s0 + w.getD (i - 7) 0 + s1)))
    w0

/-- One SHA-256 compression round on the eight working variables. -/
def sha256round (w : Array Nat) (s : List Nat) (i : Nat) : List Nat :=
  let a := s.getD 0 0
  let b := s.getD 1 0
  let c := s.getD 2 0
  let d := s.getD 3 0
  let e := s.getD 4 0
  let f := s.getD 5 0
  let g := s.getD 6 0
  let hh := s.getD 7 0
  let S1 := (rotr32 6 e) ^^^ (rotr32 11 e) ^^^ (rotr32 25 e)
  let ch := (e &&& f) ^^^ ((e ^^^ 0xffffffff) &&& g)
  let temp1 := w32 (hh + S1 + ch + sha256K.getD i 0 + w.getD i 0)
  let S0 := (rotr32 2 a) ^^^ (rotr32 13 a) ^^^ (rotr32 22 a)
  let maj := (a &&& b) ^^^ (a &&& c) ^^^ (b &&& c)
  let temp2 := w32 (S0 + maj)
  [w32 (temp1 + temp2), a, b, c, w32 (d + temp1), e, f, g]

/-- Compress one 64-byte block into the running hash state. -/
def sha256compress (h : List Nat) (block : List Nat) : List Nat :=
  let w := sha256schedule block
  let s := (List.range 64).foldl (sha256round w) h
  (List.range 8).map (fun i => w32 (h.getD i 0 + s.getD i 0))

/-- The 32 digest bytes of SHA-256 over a byte message. -/
def sha256bytes (msg : List Nat) : List Nat :=
  let final := (sha256blocks (sha256pad msg)).foldl sha256compress sha256H0
  (final.map (fun x => [(x >>> 24) % 256, (x >>> 16) % 256, (x >>> 8) % 256, x % 256])).flatten

/-- One lowercase hexadecimal digit. -/
def hexChar (n : Nat) : Char := if n < 10 then Char.ofNat (48 + n) else Char.ofNat (87 + n)

/-- A byte as two lowercase hexadecimal digits. -/
def byteHex (b : Nat) : List Char := [hexChar (b / 16 % 16), hexChar (b % 16)]

/-- `hashlib.sha256(msg).hexdigest()`: the digest as 64 lowercase hex digits. -/
def sha256hex (msg : List Nat) : String := String.mk ((sha256bytes msg).map byteHex).flatten

/-! ## Filename sanitizer (`determine_apod_file_path`)

`file_ext = image_url.split(".")[-1]`;
`file_name = re.sub('[^A-Za-z0-9_]+', '', image_title.strip().replace(' ', '_'))`;
`file_name = '.'.join((file_name, file_ext))`;
`file_path = os.path.join(image_cache_dir, file_name)`.
-/

/-- The characters Python's `str.strip()` removes: `str.isspace()` characters
(ASCII whitespace, the information separators, NEL, and the Unicode space
separators). -/
def pyIsSpace (c : Char) : Bool :=
  c ∈ ([' ', '\t', '\n', '\x0b', '\x0c', '\x0d', '\x1c', '\x1d', '\x1e', '\x1f',
        '\x85', '\xa0', '\u1680', '\u2000', '\u2001', '\u2002', '\u2003', '\u2004',
        '\u2005', '\u2006', '\u2007', '\u2008', '\u2009', '\u200a', '\u2028',
        '\u2029', '\u202f', '\u205f', '\u3000'] : List Char)

/-- Python `s.strip()`: drop leading and trailing whitespace characters. -/
def pyStrip (l : List Char) : List Char :=
  ((l.dropWhile pyIsSpace).reverse.dropWhile pyIsSpace).reverse

/-- Python `"x".split(".")`: the list of `.`-separated segments (never empty;
a string with no `.` yields the one-element list holding the whole string). -/
def pySplitDot (l : List Char) : List (List Char) :=
  match l with
  | [] => [[]]
  | c :: rest =>
    let r := pySplitDot rest
    if c = '.' then [] :: r
    else (c :: r.headD []) :: r.tail

/-- The character class kept by `re.sub('[^A-Za-z0-9_]+', '', s)`:
ASCII letters, ASCII digits, underscore. -/
def isWordChar (c : Char) : Bool :=
  (('A' ≤ c && c ≤ 'Z') || ('a' ≤ c && c ≤ 'z') || ('0' ≤ c && c ≤ '9') || c = '_')

/-- `image_url.split(".")[-1]`: the substring after the final `.` of the URL
(the whole URL when it has no `.`). -/
def apod_file_ext (image_url : String) : String :=
  String.mk ((pySplitDot image_url.toList).getLastD [])

/-- `re.sub('[^A-Za-z0-9_]+', '', image_title.strip().replace(' ', '_'))`. -/
def apod_sanitized_title (image_title : String) : String :=
  String.mk (((pyStrip image_title.toList).map (fun c => if c = ' ' then '_' else c)).filter isWordChar)

/-- The file name `determine_apod_file_path` derives: sanitized title,
a `.`, then the extension taken from the URL. -/
def determine_apod_file_name (image_title image_url : String) : String :=
  apod_sanitized_title image_title ++ "." ++ apod_file_ext image_url

/-- The cache directory (`os.path.join(script_dir, 'ImageCacheDir')`); the
script-directory prefix is abstracted to the directory name itself. -/
def image_cache_dir : String := "ImageCacheDir"

/-- `determine_apod_file_path(image_title, image_url)`: the derived file name
placed inside the cache directory. -/
def determine_apod_file_path (image_title image_url : String) : String :=
  image_cache_dir ++ "/" ++ determine_apod_file_name image_title image_url

/-- Python `str.upper()` on one character, as it acts on the ASCII range
(the only characters a hex digest contains): lowercase ASCII letters are
uppercased, everything else kept. -/
def pyUpperChar (c : Char) : Char :=
  if 'a' ≤ c && c ≤ 'z' then Char.ofNat (c.toNat - 32) else c

/-- Python `s.upper()`: uppercase every character. -/
def pyUpper (s : String) : String := String.mk (s.toList.map pyUpperChar)

/-! ## Cache index (`image_data` table of `NASA.db`) -/

/-- One row of the `image_data` table. -/
structure ImageRecord where
  id : Nat
  title : String
  explanation : String
  file_path : String
  sha256 : String
deriving DecidableEq, Repr

/-- The `image_data` table, in insertion (storage) order. -/
abbrev ImageDB := List ImageRecord

/-- The rowid SQLite assigns to the next insert into `image_data`
(`INTEGER PRIMARY KEY`): one more than the largest existing id, so `1` on an
empty table. -/
def nextId (db : ImageDB) : Nat := (db.map (fun r => r.id)).foldr max 0 + 1

/-- `add_apod_to_db(title, explanation, file_path, sha256)`: insert one row
with the fingerprint uppercased, returning `lastrowid`; any exception is
caught and `0` returned with the table unchanged (the transaction was never
committed). `ok` is the outcome of the fallible SQLite calls. -/
def add_apod_to_db (db : ImageDB) (ok : Bool)
    (title explanation file_path sha256 : String) : Nat × ImageDB :=
  if ok then
    let newId := nextId db
    (newId, db ++ [⟨newId, title, explanation, file_path, pyUpper sha256⟩])
  else
    (0, db)

/-- `get_apod_id_from_db(image_sha256)`: `SELECT id FROM image_data WHERE
sha256 = '<upper>'`, `fetchone` taking the first row in storage order;
`0` when no row matches. -/
def get_apod_id_from_db (db : ImageDB) (image_sha256 : String) : Nat :=
  match db.find? (fun r => r.sha256 == pyUpper image_sha256) with
  | some r => r.id
  | none => 0

/-- The dictionary `get_apod_info` builds from a fetched row. -/
structure ApodInfoDict where
  title : String
  explanation : String
  file_path : String
deriving DecidableEq, Repr

/-- How a run of the daily flow can fail. `typeError` is Python's uncaught
`TypeError` from subscripting the `None` that `fetchone` returns on an empty
result; `cacheWriteFailed` is the CacheWriteFailed condition the spec
describes (the code never raises it — it exists here to let that part of the
spec be stated). -/
inductive FlowError
  | typeError
  | cacheWriteFailed
deriving DecidableEq, Repr

/-- `get_apod_info(image_id)`: `SELECT title, explanation, file_path FROM
image_data WHERE id = <image_id>`, then build the dictionary from the fetched
row. When no row matches, `fetchone` returns `None` and `query_result[0]`
raises `TypeError`. -/
def get_apod_info (db : ImageDB) (image_id : Nat) : Except FlowError ApodInfoDict :=
  match db.find? (fun r => r.id == image_id) with
  | some r => Except.ok ⟨r.title, r.explanation, r.file_path⟩
  | none => Except.error FlowError.typeError

/-- `get_all_apod_titles()`: `SELECT title FROM image_data`, first column of
every row in storage order. -/
def get_all_apod_titles (db : ImageDB) : List String :=
  db.map (fun r => r.title)

/-! ## Date validation (`get_apod_date`) -/

/-- A calendar date as Python's `datetime.date` compares it. -/
structure Date where
  year : Nat
  month : Nat
  day : Nat
deriving DecidableEq, Repr

/-- Python `date` comparison `a < b` (lexicographic on year, month, day). -/
def dateBefore (a b : Date) : Bool :=
  a.year < b.year ||
    (a.year = b.year && (a.month < b.month || (a.month = b.month && a.day < b.day)))

/-- `MIN_APOD_DATE = date(1999, 7, 14)`. -/
def MIN_APOD_DATE : Date := ⟨1999, 7, 14⟩

/-- How `get_apod_date` can abort the script (`sys.exit`). -/
inductive DateError
  | invalidFormat
  | tooEarly
  | inFuture
deriving DecidableEq, Repr

/-- `get_apod_date()`: `argv1` is `none` when no CLI argument was given,
`some none` when `date.fromisoformat` raised `ValueError` on the argument, and
`some (some d)` when it parsed to `d`; `today` is `date.today()` at call time.
With an argument the date is rejected when it precedes `MIN_APOD_DATE` or
exceeds `today`; with no argument today's date is used unchecked. -/
def get_apod_date (argv1 : Option (Option Date)) (today : Date) : Except DateError Date :=
  match argv1 with
  | none => Except.ok today
  | some none => Except.error DateError.invalidFormat
  | some (some apod_date) =>
    if dateBefore apod_date MIN_APOD_DATE then Except.error DateError.tooEarly
    else if dateBefore today apod_date then Except.error DateError.inFuture
    else Except.ok apod_date

/-! ## Cache store (`add_apod_to_cache`) and daily flow (`main`) -/

/-- The cache directory contents on disk: newest write first, keyed by path. -/
abbrev Disk := List (String × List Nat)

/-- `image_lib.save_image_file(data, path)` (external collaborator): writes
the bytes and reports success; `ok` is the outcome of the attempt, and a
failed attempt leaves no file. -/
def save_image_file (ok : Bool) (data : List Nat) (path : String) (disk : Disk) :
    Bool × Disk :=
  if ok then (true, (path, data) :: disk) else (false, disk)

/-- The persistent state `add_apod_to_cache` touches: the `image_data` table
and the cache directory. -/
structure CacheState where
  db : ImageDB
  disk : Disk
deriving DecidableEq, Repr

/-- The metadata of the APOD for the requested date, as returned by the
external `apod_api.get_apod_info` plus `get_apod_image_url`. -/
structure ApodMeta where
  title : String
  explanation : String
  url : String
deriving DecidableEq, Repr

/-- Outcomes of the external collaborators during one run:
`apodMeta` is `apod_api.get_apod_info(apod_date)` (with the URL
`get_apod_image_url` picks), `imageData` is `requests.get(apod_url).content`,
`saveOk` is whether `image_lib.save_image_file` succeeds, and `insertOk` is
whether the SQLite insert inside `add_apod_to_db` succeeds. -/
structure Env where
  apodMeta : Option ApodMeta
  imageData : List Nat
  saveOk : Bool
  insertOk : Bool
deriving DecidableEq, Repr

/-- `init_apod_cache()`: create the cache directory and the `image_data`
table when absent; an existing cache is kept as is. -/
def init_apod_cache (existing : Option CacheState) : CacheState :=
  existing.getD ⟨[], []⟩

/-- `add_apod_to_cache(apod_date)`, statement by statement: fetch metadata
(`0` when `None`), download the bytes, hash them, return the existing id on a
fingerprint hit, otherwise derive the file path, save the bytes (`0` on
failure, nothing written), and insert the record, returning
`add_apod_to_db`'s result. -/
def add_apod_to_cache (env : Env) (s : CacheState) : Nat × CacheState :=
  match env.apodMeta with
  | none => (0, s)
  | some meta =>
    let apod_sha256 := sha256hex env.imageData
    let apod_id := get_apod_id_from_db s.db apod_sha256
    if apod_id ≠ 0 then (apod_id, s)
    else
      let apod_path := determine_apod_file_path meta.title meta.url
      let saved := save_image_file env.saveOk env.imageData apod_path s.disk
      if !saved.1 then (0, { s with disk := saved.2 })
      else
        let inserted := add_apod_to_db s.db env.insertOk meta.title meta.explanation
          apod_path apod_sha256
        (inserted.1, { db := inserted.2, disk := saved.2 })

/-- The body of `main` after date validation and cache initialisation:
`apod_id = add_apod_to_cache(...)`, `apod_info = get_apod_info(apod_id)`,
then hand `apod_info['file_path']` to the background setter. There is no
check between the two calls: whatever id `add_apod_to_cache` returns —
including the failure sentinel `0` — is looked up directly. -/
def main_flow (env : Env) (s : CacheState) : Except FlowError (ApodInfoDict × CacheState) :=
  let resolved := add_apod_to_cache env s
  match get_apod_info resolved.2.db resolved.1 with
  | Except.error e => Except.error e
  | Except.ok info => Except.ok (info, resolved.2)

/-! ## The sanitizer as the specification words it

These definitions follow the spec's sentences, to be compared with the ones
translated from the code.
-/

/-- The spec's "the substring after the final `.` in `source_url`": the
longest dot-free suffix. -/
def afterLastDot (l : List Char) : List Char :=
  (l.reverse.takeWhile (fun c => c ≠ '.')).reverse

/-- The sanitizer exactly as the spec words it: trim leading/trailing
whitespace, replace internal whitespace with underscores, strip every
character that is not an ASCII letter, digit, or underscore, then append `.`
plus the substring of the URL after its final `.`. -/
def spec_derive_file_name (image_title image_url : String) : String :=
  String.mk (((pyStrip image_title.toList).map (fun c => if pyIsSpace c then '_' else c)).filter isWordChar)
    ++ "." ++ String.mk (afterLastDot image_url.toList)

/-- The sanitizer claim as amended: only the space character `' '` is
replaced by an underscore; other whitespace characters are not replaced but
disappear in the subsequent character filter. -/
def amended_derive_file_name (image_title image_url : String) : String :=
  String.mk (((pyStrip image_title.toList).map (fun c => if c = ' ' then '_' else c)).filter isWordChar)
    ++ "." ++ String.mk (afterLastDot image_url.toList)

/-- The number of records carrying the stored fingerprint `x`. -/
def fpCount (db : ImageDB) (x : String) : Nat :=
  (db.filter (fun r => r.sha256 == x)).length

/-- The dedup invariant of the data model: at most one record per distinct
stored content fingerprint. -/
def AtMostOnePerFp (db : ImageDB) : Prop := ∀ x : String, fpCount db x ≤ 1

/-- A concrete environment for a successful first write: metadata present,
bytes `"ABC"`, save and insert both succeeding. -/
def envFirst : Env := ⟨some ⟨"Test", "Explanation", "http://x/a.jpg"⟩, [65, 66, 67], true, true⟩

/-- A concrete second-run environment: the same bytes as `envFirst` but a
different title, explanation and URL. -/
def envSecond : Env := ⟨some ⟨"Other", "Other words", "http://x/b.png"⟩, [65, 66, 67], true, true⟩

/-- A concrete environment whose disk write fails. -/
def envSaveFail : Env := ⟨some ⟨"T", "E", "http://x/y.jpg"⟩, [65], false, true⟩

/-! ## Helper lemmas -/

theorem pySplitDot_ne_nil (l : List Char) : pySplitDot l ≠ [] := by
  cases l with
  | nil => simp [pySplitDot]
  | cons c rest => simp only [pySplitDot]; split <;> simp

theorem pySplitDot_cons_dot (rest : List Char) :
    pySplitDot ('.' :: rest) = [] :: pySplitDot rest := by
  simp [pySplitDot]

theorem pySplitDot_cons_ne {c : Char} (rest : List Char) (hc : c ≠ '.') :
    pySplitDot (c :: rest) =
      (c :: (pySplitDot rest).headD []) :: (pySplitDot rest).tail := by
  simp [pySplitDot, hc]

theorem pySplitDot_no_dot {l : List Char} (h : '.' ∉ l) : pySplitDot l = [l] := by
  induction l with
  | nil => rfl
  | cons c rest ih =>
    simp only [List.mem_cons, not_or] at h
    rw [pySplitDot_cons_ne rest (fun hx => h.1 hx.symm), ih h.2]
    simp

theorem pySplitDot_length_of_dot {l : List Char} (h : '.' ∈ l) :
    2 ≤ (pySplitDot l).length := by
  induction l with
  | nil => cases h
  | cons c rest ih =>
    have h1 : 1 ≤ (pySplitDot rest).length :=
      List.length_pos.mpr (pySplitDot_ne_nil rest)
    by_cases hc : c = '.'
    · subst hc
      rw [pySplitDot_cons_dot]
      simp only [List.length_cons]
      omega
    · have hrest : '.' ∈ rest := by
        cases List.mem_cons.mp h with
        | inl h' => exact absurd h'.symm hc
        | inr h' => exact h'
      have h2 := ih hrest
      rw [pySplitDot_cons_ne rest hc]
      simp only [List.length_cons, List.length_tail]
      omega

theorem getLastD_of_ne_nil {α : Type} {l : List α} (h : l ≠ []) (a b : α) :
    l.getLastD a = l.getLastD b := by
  cases l with
  | nil => exact absurd rfl h
  | cons x xs => rw [List.getLastD_cons, List.getLastD_cons]

theorem takeWhile_append_all {α : Type} {p : α → Bool} {xs : List α} (ys : List α)
    (h : ∀ x ∈ xs, p x = true) : (xs ++ ys).takeWhile p = xs ++ ys.takeWhile p := by
  induction xs with
  | nil => simp
  | cons a l ih =>
    have ha : p a = true := h a (List.mem_cons_self a l)
    simp only [List.cons_append, List.takeWhile_cons, ha, if_pos]
    rw [ih (fun x hx => h x (List.mem_cons_of_mem a hx))]

theorem takeWhile_append_last_false {α : Type} {p : α → Bool} (xs : List α)
    {a : α} (hpa : p a = false) : (xs ++ [a]).takeWhile p = xs.takeWhile p := by
  induction xs with
  | nil => simp [List.takeWhile_cons, hpa]
  | cons b l ih =>
    by_cases hb : p b
    · simp only [List.cons_append, List.takeWhile_cons, hb, if_pos]
      rw [ih]
    · simp only [Bool.not_eq_true] at hb
      simp [List.takeWhile_cons, hb]

theorem takeWhile_append_stop {α : Type} {p : α → Bool} {xs : List α} (ys : List α)
    {a : α} (ha : a ∈ xs) (hpa : p a = false) :
    (xs ++ ys).takeWhile p = xs.takeWhile p := by
  induction xs with
  | nil => cases ha
  | cons b l ih =>
    by_cases hb : p b
    · have hal : a ∈ l := by
        cases List.mem_cons.mp ha with
        | inl h' => rw [h'] at hpa; rw [hpa] at hb; cases hb
        | inr h' => exact h'
      simp only [List.cons_append, List.takeWhile_cons, hb, if_pos]
      rw [ih hal]
    · simp only [Bool.not_eq_true] at hb
      simp [List.takeWhile_cons, hb]

theorem pySplitDot_getLastD (l : List Char) :
    (pySplitDot l).getLastD [] = afterLastDot l := by
  induction l with
  | nil => rfl
  | cons c rest ih =>
    by_cases hc : c = '.'
    · subst hc
      rw [pySplitDot_cons_dot, List.getLastD_cons, ih]
      simp only [afterLastDot, List.reverse_cons]
      rw [takeWhile_append_last_false rest.reverse (by simp)]
    · by_cases hd : '.' ∈ rest
      · obtain ⟨h, t, hr⟩ : ∃ h t, pySplitDot rest = h :: t := by
          cases hpr : pySplitDot rest with
          | nil => exact absurd hpr (pySplitDot_ne_nil rest)
          | cons h t => exact ⟨h, t, rfl⟩
        have ht : t ≠ [] := by
          have hlen := pySplitDot_length_of_dot hd
          rw [hr] at hlen
          simp only [List.length_cons] at hlen
          intro hnil
          rw [hnil] at hlen
          simp at hlen
        rw [pySplitDot_cons_ne rest hc, hr]
        simp only [List.headD_cons, List.tail_cons, List.getLastD_cons]
        rw [getLastD_of_ne_nil ht (c :: h) h]
        have hre : (pySplitDot rest).getLastD [] = t.getLastD h := by
          rw [hr, List.getLastD_cons]
        rw [← hre, ih]
        simp only [afterLastDot, List.reverse_cons]
        rw [takeWhile_append_stop [c] (by simpa using hd) (by simp)]
      · rw [pySplitDot_cons_ne rest hc, pySplitDot_no_dot hd]
        simp only [List.headD_cons, List.tail_cons, List.getLastD_cons,
          List.getLastD_nil]
        simp only [afterLastDot, List.reverse_cons]
        rw [takeWhile_append_all [c] (fun x hx => by
          simp only [decide_eq_true_eq]
          intro hx'
          exact hd (hx' ▸ (List.mem_reverse.mp hx)))]
        have hone : List.takeWhile (fun c => decide (c ≠ '.')) [c] = [c] := by
          simp [List.takeWhile_cons, hc]
        rw [hone]
        simp

theorem le_foldr_max {l : List Nat} {x : Nat} (h : x ∈ l) : x ≤ l.foldr max 0 := by
  induction l with
  | nil => cases h
  | cons a t ih =>
    cases List.mem_cons.mp h with
    | inl h' => subst h'; exact Nat.le_max_left _ _
    | inr h' => exact Nat.le_trans (ih h') (Nat.le_max_right _ _)

theorem id_lt_nextId {db : ImageDB} {r : ImageRecord} (h : r ∈ db) :
    r.id < nextId db := by
  have hm : r.id ∈ db.map (fun r => r.id) := List.mem_map_of_mem _ h
  have := le_foldr_max hm
  unfold nextId
  omega

theorem find_none_of_lookup_zero {db : ImageDB} {fp : String}
    (hwf : ∀ r ∈ db, r.id ≠ 0) (h : get_apod_id_from_db db fp = 0) :
    db.find? (fun r => r.sha256 == pyUpper fp) = none := by
  cases hf : db.find? (fun r => r.sha256 == pyUpper fp) with
  | none => rfl
  | some r =>
    unfold get_apod_id_from_db at h
    rw [hf] at h
    exact absurd h (hwf r (List.mem_of_find?_eq_some hf))

theorem lookup_append_matching {db : ImageDB} {fp : String} {rec : ImageRecord}
    (hnone : db.find? (fun r => r.sha256 == pyUpper fp) = none)
    (hrec : rec.sha256 = pyUpper fp) :
    get_apod_id_from_db (db ++ [rec]) fp = rec.id := by
  unfold get_apod_id_from_db
  rw [List.find?_append, hnone]
  simp [List.find?_cons, hrec]

theorem fpCount_append (db1 db2 : ImageDB) (x : String) :
    fpCount (db1 ++ db2) x = fpCount db1 x + fpCount db2 x := by
  simp [fpCount, List.filter_append]

theorem fpCount_eq_zero_of_find_none {db : ImageDB} {x : String}
    (h : db.find? (fun r => r.sha256 == x) = none) : fpCount db x = 0 := by
  unfold fpCount
  rw [List.length_eq_zero]
  rw [List.filter_eq_nil_iff]
  exact List.find?_eq_none.mp h

/-! ## Path lemmas for `add_apod_to_cache` -/

theorem add_apod_to_cache_hit {env : Env} {s : CacheState} {meta : ApodMeta}
    (hmeta : env.apodMeta = some meta)
    (hhit : get_apod_id_from_db s.db (sha256hex env.imageData) ≠ 0) :
    add_apod_to_cache env s =
      (get_apod_id_from_db s.db (sha256hex env.imageData), s) := by
  unfold add_apod_to_cache
  rw [hmeta]
  simp [hhit]

theorem add_apod_to_cache_save_fail {env : Env} {s : CacheState} {meta : ApodMeta}
    (hmeta : env.apodMeta = some meta)
    (hmiss : get_apod_id_from_db s.db (sha256hex env.imageData) = 0)
    (hfail : env.saveOk = false) :
    add_apod_to_cache env s = (0, s) := by
  unfold add_apod_to_cache save_image_file
  rw [hmeta]
  simp [hmiss, hfail]

theorem add_apod_to_cache_insert_fail {env : Env} {s : CacheState} {meta : ApodMeta}
    (hmeta : env.apodMeta = some meta)
    (hmiss : get_apod_id_from_db s.db (sha256hex env.imageData) = 0)
    (hsave : env.saveOk = true) (hins : env.insertOk = false) :
    add_apod_to_cache env s =
      (0, ⟨s.db,
           (determine_apod_file_path meta.title meta.url, env.imageData) :: s.disk⟩) := by
  unfold add_apod_to_cache save_image_file add_apod_to_db
  rw [hmeta]
  simp [hmiss, hsave, hins]

theorem add_apod_to_cache_miss_success {env : Env} {s : CacheState} {meta : ApodMeta}
    (hmeta : env.apodMeta = some meta)
    (hmiss : get_apod_id_from_db s.db (sha256hex env.imageData) = 0)
    (hsave : env.saveOk = true) (hins : env.insertOk = true) :
    add_apod_to_cache env s =
      (nextId s.db,
       ⟨s.db ++ [⟨nextId s.db, meta.title, meta.explanation,
            determine_apod_file_path meta.title meta.url,
            pyUpper (sha256hex env.imageData)⟩],
        (determine_apod_file_path meta.title meta.url, env.imageData) :: s.disk⟩) := by
  unfold add_apod_to_cache save_image_file add_apod_to_db
  rw [hmeta]
  simp [hmiss, hsave, hins]

theorem add_apod_to_cache_zero_db {env : Env} {s : CacheState}
    (h : (add_apod_to_cache env s).1 = 0) :
    (add_apod_to_cache env s).2.db = s.db := by
  cases hm : env.apodMeta with
  | none =>
    unfold add_apod_to_cache
    rw [hm]
  | some meta =>
    by_cases hhit : get_apod_id_from_db s.db (sha256hex env.imageData) ≠ 0
    · rw [add_apod_to_cache_hit hm hhit]
    · push_neg at hhit
      cases hsave : env.saveOk with
      | false => rw [add_apod_to_cache_save_fail hm hhit hsave]
      | true =>
        cases hins : env.insertOk with
        | false => rw [add_apod_to_cache_insert_fail hm hhit hsave hins]
        | true =>
          rw [add_apod_to_cache_miss_success hm hhit hsave hins] at h
          have : nextId s.db ≠ 0 := by unfold nextId; omega
          exact absurd h this

theorem get_apod_info_not_found {db : ImageDB} {image_id : Nat}
    (h : ∀ r ∈ db, r.id ≠ image_id) :
    get_apod_info db image_id = Except.error FlowError.typeError := by
  unfold get_apod_info
  have hn : db.find? (fun r => r.id == image_id) = none :=
    List.find?_eq_none.mpr (fun r hr => by simpa using h r hr)
  rw [hn]

/-! ## Claims -/

/-- C5, counterexample: the claim says `determine_apod_file_path` replaces
every internal whitespace character with an underscore, but the code only
replaces the space character `' '`; on the title `"a\tb"` (internal tab) the
code deletes the tab while the claim's transform would yield an underscore. -/
theorem c5_sanitizer_counterexample :
    determine_apod_file_name "a\tb" "http://x/y.jpg" = "ab.jpg" ∧
    spec_derive_file_name "a\tb" "http://x/y.jpg" = "a_b.jpg" ∧
    determine_apod_file_name "a\tb" "http://x/y.jpg" ≠
      spec_derive_file_name "a\tb" "http://x/y.jpg" := by
  refine ⟨by decide, by decide, by decide⟩

/-- C5, amended: `determine_apod_file_path` trims leading/trailing
whitespace from the title, replaces internal space characters (only `' '`,
not all whitespace) with underscores, strips every character that is not an
ASCII letter, digit, or underscore, and appends `.` plus the substring of
the URL after its final `.`; in particular the derived file name for
`"NASA's Galaxy!!"` with `"http://x/y.jpg"` is `"NASAs_Galaxy.jpg"`. -/
theorem c5_sanitizer_amended (image_title image_url : String) :
    determine_apod_file_name image_title image_url =
      amended_derive_file_name image_title image_url ∧
    determine_apod_file_name "NASA's Galaxy!!" "http://x/y.jpg" =
      "NASAs_Galaxy.jpg" := by
  constructor
  · unfold determine_apod_file_name amended_derive_file_name apod_file_ext
    rw [pySplitDot_getLastD]
    rfl
  · decide

/-- C6: whenever the sanitization empties the title, the derived file name
is just `.` followed by the extension; in particular the title `"!!!"` with
URL `"http://x/y.png"` yields the file name `".png"`. -/
theorem c6_empty_title (image_title image_url : String)
    (h : apod_sanitized_title image_title = "") :
    determine_apod_file_name image_title image_url =
      "." ++ apod_file_ext image_url ∧
    determine_apod_file_name "!!!" "http://x/y.png" = ".png" := by
  constructor
  · unfold determine_apod_file_name
    rw [h]
    rfl
  · decide

/-- Witness for C6 at the concrete empty-sanitization title `"!!!"`. -/
theorem c6_empty_title_witness :
    apod_sanitized_title "!!!" = "" ∧
    determine_apod_file_name "!!!" "http://x/y.png" =
      "." ++ apod_file_ext "http://x/y.png" := by
  exact ⟨by decide, (c6_empty_title "!!!" "http://x/y.png" (by decide)).1⟩

/-- C10: when the source URL contains no `.`, the whole URL is taken as the
extension, so the derived file name is the sanitized title, a `.`, then the
entire URL. -/
theorem c10_no_dot_url (image_title image_url : String)
    (h : '.' ∉ image_url.toList) :
    determine_apod_file_name image_title image_url =
      apod_sanitized_title image_title ++ "." ++ image_url := by
  unfold determine_apod_file_name apod_file_ext
  rw [pySplitDot_no_dot h]
  rfl

/-- Witness for C10 at the dot-free URL `"httpxyjpg"`. -/
theorem c10_no_dot_url_witness :
    ('.' ∉ ("httpxyjpg" : String).toList) ∧
    determine_apod_file_name "Test Title" "httpxyjpg" =
      apod_sanitized_title "Test Title" ++ "." ++ "httpxyjpg" :=
  ⟨by decide, c10_no_dot_url "Test Title" "httpxyjpg" (by decide)⟩

/-- C4: an explicitly supplied date is rejected exactly when it lies strictly
before 1999-07-14 or strictly after today's date; and provided today is not
before 1999-07-14, the date 1999-07-14 itself passes validation. -/
theorem c4_date_bounds (d today : Date) :
    ((∃ e, get_apod_date (some (some d)) today = Except.error e) ↔
      (dateBefore d MIN_APOD_DATE = true ∨ dateBefore today d = true)) ∧
    (dateBefore today MIN_APOD_DATE = false →
      get_apod_date (some (some MIN_APOD_DATE)) today = Except.ok MIN_APOD_DATE) := by
  constructor
  · unfold get_apod_date
    by_cases h1 : dateBefore d MIN_APOD_DATE <;>
      by_cases h2 : dateBefore today d <;> simp [h1, h2]
  · intro h
    unfold get_apod_date
    have hmin : dateBefore MIN_APOD_DATE MIN_APOD_DATE = false := by decide
    simp [hmin, h]

/-- Witness for C4: 1999-07-13 is rejected and 1999-07-14 accepted when
today is 2026-10-12. -/
theorem c4_date_bounds_witness :
    (dateBefore ⟨1999, 7, 13⟩ MIN_APOD_DATE = true ∨
      dateBefore ⟨2026, 10, 12⟩ ⟨1999, 7, 13⟩ = true) ∧
    (∃ e, get_apod_date (some (some ⟨1999, 7, 13⟩)) ⟨2026, 10, 12⟩ =
      Except.error e) ∧
    get_apod_date (some (some MIN_APOD_DATE)) ⟨2026, 10, 12⟩ =
      Except.ok MIN_APOD_DATE := by
  refine ⟨by decide, ?_, ?_⟩
  · exact ((c4_date_bounds ⟨1999, 7, 13⟩ ⟨2026, 10, 12⟩).1).mpr (by decide)
  · exact (c4_date_bounds ⟨1999, 7, 13⟩ ⟨2026, 10, 12⟩).2 (by decide)

/-- C3: `add_apod_to_db` is all-or-nothing — on failure it returns `0` and
the table is unchanged (so a fingerprint not retrievable before is not
retrievable after), and on success it returns the newly assigned id, which
is nonzero and differs from every existing id. -/
theorem c3_insert_all_or_nothing (db : ImageDB)
    (title explanation file_path fp : String) :
    add_apod_to_db db false title explanation file_path fp = (0, db) ∧
    (get_apod_id_from_db db fp = 0 →
      get_apod_id_from_db
        (add_apod_to_db db false title explanation file_path fp).2 fp = 0) ∧
    (add_apod_to_db db true title explanation file_path fp).1 = nextId db ∧
    nextId db ≠ 0 ∧
    (∀ r ∈ db, r.id ≠ nextId db) := by
  refine ⟨rfl, ?_, rfl, ?_, ?_⟩
  · intro h
    exact h
  · unfold nextId
    omega
  · intro r hr
    have := id_lt_nextId hr
    omega

/-- Witness for C3 at a concrete one-record table. -/
theorem c3_insert_all_or_nothing_witness :
    get_apod_id_from_db [⟨1, "T", "E", "p", "ABCD"⟩] "beef" = 0 ∧
    add_apod_to_db [⟨1, "T", "E", "p", "ABCD"⟩] false "T2" "E2" "p2" "beef" =
      (0, [⟨1, "T", "E", "p", "ABCD"⟩]) ∧
    get_apod_id_from_db
      (add_apod_to_db [⟨1, "T", "E", "p", "ABCD"⟩] false "T2" "E2" "p2" "beef").2
      "beef" = 0 ∧
    (add_apod_to_db [⟨1, "T", "E", "p", "ABCD"⟩] true "T2" "E2" "p2" "beef").1 =
      nextId [⟨1, "T", "E", "p", "ABCD"⟩] := by
  have h := c3_insert_all_or_nothing [⟨1, "T", "E", "p", "ABCD"⟩] "T2" "E2" "p2" "beef"
  exact ⟨by decide, h.1, h.2.1 (by decide), h.2.2.1⟩

/-- C7, counterexample: on an id with no record (id 5 in an empty index) the
claim says `get_apod_info` returns a record-shaped value with inert fields;
the code instead raises an uncaught `TypeError` when it subscripts the `None`
returned by `fetchone`, so no record-shaped value is returned. -/
theorem c7_get_missing_counterexample :
    get_apod_info ([] : ImageDB) 5 = Except.error FlowError.typeError := rfl

/-- C7, amended: for every id with no record in the index, `get_apod_info`
does not fail with a NotFound condition nor return a record: it raises an
uncaught `TypeError` while building the record from the absent row. -/
theorem c7_get_missing_amended (db : ImageDB) (image_id : Nat)
    (h : ∀ r ∈ db, r.id ≠ image_id) :
    get_apod_info db image_id = Except.error FlowError.typeError :=
  get_apod_info_not_found h

/-- Witness for C7 at a concrete index and missing id. -/
theorem c7_get_missing_amended_witness :
    ((⟨1, "T", "E", "p", "ABCD"⟩ : ImageRecord).id ≠ 7) ∧
    get_apod_info [⟨1, "T", "E", "p", "ABCD"⟩] 7 =
      Except.error FlowError.typeError := by
  refine ⟨by decide, c7_get_missing_amended [⟨1, "T", "E", "p", "ABCD"⟩] 7 ?_⟩
  intro r hr
  simp only [List.mem_singleton] at hr
  subst hr
  decide

/-- C2: when the fingerprint is not yet in the index and the disk write
fails, `add_apod_to_cache` returns `0` and the whole cache state — in
particular the index — is unchanged, with no insert performed. -/
theorem c2_write_failure_atomicity (env : Env) (s : CacheState) (meta : ApodMeta)
    (hmeta : env.apodMeta = some meta)
    (hmiss : get_apod_id_from_db s.db (sha256hex env.imageData) = 0)
    (hfail : env.saveOk = false) :
    add_apod_to_cache env s = (0, s) :=
  add_apod_to_cache_save_fail hmeta hmiss hfail

/-- Witness for C2: a failed save on an empty cache returns `0` and changes
nothing. -/
theorem c2_write_failure_atomicity_witness :
    (Env.mk (some ⟨"T", "E", "http://x/y.jpg"⟩) [1, 2, 3] false true).apodMeta =
      some ⟨"T", "E", "http://x/y.jpg"⟩ ∧
    get_apod_id_from_db ([] : ImageDB) (sha256hex [1, 2, 3]) = 0 ∧
    add_apod_to_cache (Env.mk (some ⟨"T", "E", "http://x/y.jpg"⟩) [1, 2, 3] false true)
      ⟨[], []⟩ = (0, ⟨[], []⟩) := by
  refine ⟨rfl, rfl, ?_⟩
  exact c2_write_failure_atomicity _ _ ⟨"T", "E", "http://x/y.jpg"⟩ rfl rfl rfl

/-- C1: over a well-formed index (no record carries the sentinel id 0),
(a) when the fingerprint of the downloaded bytes already has a record,
`add_apod_to_cache` returns that record's id with the cache state — index
and disk — unchanged; (b) whenever a call returns a nonzero id, a second
call with the same bytes (any title/url/outcomes) returns the same id and
changes nothing; (c) the at-most-one-record-per-fingerprint invariant is
preserved by every call. -/
theorem c1_dedup_idempotence (env env2 : Env) (s : CacheState) (meta : ApodMeta)
    (hwf : ∀ r ∈ s.db, r.id ≠ 0)
    (hmeta : env.apodMeta = some meta) :
    (get_apod_id_from_db s.db (sha256hex env.imageData) ≠ 0 →
      add_apod_to_cache env s =
        (get_apod_id_from_db s.db (sha256hex env.imageData), s)) ∧
    (∀ meta2 id1 s1, env2.apodMeta = some meta2 →
      env2.imageData = env.imageData →
      add_apod_to_cache env s = (id1, s1) → id1 ≠ 0 →
      add_apod_to_cache env2 s1 = (id1, s1)) ∧
    (AtMostOnePerFp s.db → AtMostOnePerFp (add_apod_to_cache env s).2.db) := by
  refine ⟨fun hhit => add_apod_to_cache_hit hmeta hhit, ?_, ?_⟩
  · intro meta2 id1 s1 hmeta2 hbytes h1 hne
    by_cases hhit : get_apod_id_from_db s.db (sha256hex env.imageData) ≠ 0
    · rw [add_apod_to_cache_hit hmeta hhit] at h1
      injection h1 with h1a h1b
      subst h1a
      subst h1b
      rw [add_apod_to_cache_hit hmeta2 (by rw [hbytes]; exact hhit), hbytes]
    · push_neg at hhit
      cases hsave : env.saveOk with
      | false =>
        rw [add_apod_to_cache_save_fail hmeta hhit hsave] at h1
        injection h1 with h1a h1b
        subst h1a
        exact absurd rfl hne
      | true =>
        cases hins : env.insertOk with
        | false =>
          rw [add_apod_to_cache_insert_fail hmeta hhit hsave hins] at h1
          injection h1 with h1a h1b
          subst h1a
          exact absurd rfl hne
        | true =>
          rw [add_apod_to_cache_miss_success hmeta hhit hsave hins] at h1
          injection h1 with h1a h1b
          subst h1a
          subst h1b
          have hfind := find_none_of_lookup_zero hwf hhit
          have hlook : get_apod_id_from_db
              (s.db ++ [⟨nextId s.db, meta.title, meta.explanation,
                determine_apod_file_path meta.title meta.url,
                pyUpper (sha256hex env.imageData)⟩])
              (sha256hex env2.imageData) = nextId s.db := by
            rw [hbytes]
            exact lookup_append_matching hfind rfl
          have hne2 : get_apod_id_from_db
              (s.db ++ [⟨nextId s.db, meta.title, meta.explanation,
                determine_apod_file_path meta.title meta.url,
                pyUpper (sha256hex env.imageData)⟩])
              (sha256hex env2.imageData) ≠ 0 := by
            rw [hlook]
            unfold nextId
            omega
          rw [add_apod_to_cache_hit hmeta2 hne2, hlook]
  · intro hinv
    by_cases hhit : get_apod_id_from_db s.db (sha256hex env.imageData) ≠ 0
    · rw [add_apod_to_cache_hit hmeta hhit]
      exact hinv
    · push_neg at hhit
      cases hsave : env.saveOk with
      | false =>
        rw [add_apod_to_cache_save_fail hmeta hhit hsave]
        exact hinv
      | true =>
        cases hins : env.insertOk with
        | false =>
          rw [add_apod_to_cache_insert_fail hmeta hhit hsave hins]
          exact hinv
        | true =>
          rw [add_apod_to_cache_miss_success hmeta hhit hsave hins]
          intro x
          show fpCount (s.db ++ [⟨nextId s.db, meta.title, meta.explanation,
            determine_apod_file_path meta.title meta.url,
            pyUpper (sha256hex env.imageData)⟩]) x ≤ 1
          rw [fpCount_append]
          have hfind := find_none_of_lookup_zero hwf hhit
          by_cases hx : pyUpper (sha256hex env.imageData) = x
          · have hzero : fpCount s.db x = 0 := by
              rw [← hx]
              exact fpCount_eq_zero_of_find_none hfind
            have hone : fpCount [(⟨nextId s.db, meta.title, meta.explanation,
                determine_apod_file_path meta.title meta.url,
                pyUpper (sha256hex env.imageData)⟩ : ImageRecord)] x ≤ 1 := by
              unfold fpCount
              cases hf : (List.filter (fun r => r.sha256 == x)
                [(⟨nextId s.db, meta.title, meta.explanation,
                  determine_apod_file_path meta.title meta.url,
                  pyUpper (sha256hex env.imageData)⟩ : ImageRecord)]) with
              | nil => simp
              | cons y ys =>
                have := List.length_filter_le (fun r => (r.sha256 == x))
                  [(⟨nextId s.db, meta.title, meta.explanation,
                    determine_apod_file_path meta.title meta.url,
                    pyUpper (sha256hex env.imageData)⟩ : ImageRecord)]
                rw [hf] at this
                simpa using this
            omega
          · have hzero : fpCount [(⟨nextId s.db, meta.title, meta.explanation,
                determine_apod_file_path meta.title meta.url,
                pyUpper (sha256hex env.imageData)⟩ : ImageRecord)] x = 0 := by
              unfold fpCount
              simp only [List.filter, List.length_nil]
              have : ((⟨nextId s.db, meta.title, meta.explanation,
                  determine_apod_file_path meta.title meta.url,
                  pyUpper (sha256hex env.imageData)⟩ : ImageRecord).sha256 == x) = false := by
                simp only [beq_eq_false_iff_ne]
                exact hx
              simp [this]
            have := hinv x
            omega

/-- Witness for C1: a successful first resolve of bytes `"ABC"` on an empty
cache returns id 1; the second resolve with the same bytes and different
metadata returns the same id and leaves the state unchanged. -/
theorem c1_dedup_idempotence_witness :
    (add_apod_to_cache envFirst ⟨[], []⟩).1 = 1 ∧
    add_apod_to_cache envSecond (add_apod_to_cache envFirst ⟨[], []⟩).2 =
      ((add_apod_to_cache envFirst ⟨[], []⟩).1, (add_apod_to_cache envFirst ⟨[], []⟩).2) ∧
    (AtMostOnePerFp ([] : ImageDB) →
      AtMostOnePerFp (add_apod_to_cache envFirst ⟨[], []⟩).2.db) := by
  have hone : (add_apod_to_cache envFirst ⟨[], []⟩).1 = 1 := rfl
  have h := c1_dedup_idempotence envFirst envSecond ⟨[], []⟩
    ⟨"Test", "Explanation", "http://x/a.jpg"⟩ (by simp) rfl
  refine ⟨hone, ?_, h.2.2⟩
  exact h.2.1 ⟨"Other", "Other words", "http://x/b.png"⟩
    (add_apod_to_cache envFirst ⟨[], []⟩).1 (add_apod_to_cache envFirst ⟨[], []⟩).2
    rfl rfl rfl (by rw [hone]; omega)

/-- C8, counterexample: a run in which the disk write fails — so resolve
returns 0 — does not make the flow fail with the CacheWriteFailed condition
before any lookup; `main` proceeds into `get_apod_info(0)`, whose empty
query result raises an uncaught TypeError. -/
theorem c8_flow_counterexample :
    (add_apod_to_cache envSaveFail ⟨[], []⟩).1 = 0 ∧
    main_flow envSaveFail ⟨[], []⟩ ≠ Except.error FlowError.cacheWriteFailed ∧
    main_flow envSaveFail ⟨[], []⟩ = Except.error FlowError.typeError := by
  have h : add_apod_to_cache envSaveFail ⟨[], []⟩ = (0, ⟨[], []⟩) :=
    @add_apod_to_cache_save_fail envSaveFail ⟨[], []⟩ ⟨"T", "E", "http://x/y.jpg"⟩ rfl rfl rfl
  have h3 : main_flow envSaveFail ⟨[], []⟩ = Except.error FlowError.typeError := by
    simp only [main_flow, h]
    rfl
  refine ⟨by rw [h], by rw [h3]; simp, h3⟩

/-- C8, amended: for every run in which resolve returns 0 (over a
well-formed index with no id-0 record), the flow does not return a record —
but not by failing with a CacheWriteFailed condition: `main` proceeds to
look up id 0, and that lookup raises an uncaught TypeError. -/
theorem c8_flow_zero_amended (env : Env) (s : CacheState)
    (hwf : ∀ r ∈ s.db, r.id ≠ 0)
    (h0 : (add_apod_to_cache env s).1 = 0) :
    main_flow env s = Except.error FlowError.typeError := by
  have hdb : (add_apod_to_cache env s).2.db = s.db := add_apod_to_cache_zero_db h0
  have hget : get_apod_info (add_apod_to_cache env s).2.db
      (add_apod_to_cache env s).1 = Except.error FlowError.typeError := by
    rw [h0, hdb]
    exact get_apod_info_not_found hwf
  simp only [main_flow, hget]

/-- Witness for C8 (amended) at the failed-save run on an empty cache. -/
theorem c8_flow_zero_amended_witness :
    (add_apod_to_cache envSaveFail ⟨[], []⟩).1 = 0 ∧
    main_flow envSaveFail ⟨[], []⟩ = Except.error FlowError.typeError := by
  have h : add_apod_to_cache envSaveFail ⟨[], []⟩ = (0, ⟨[], []⟩) :=
    @add_apod_to_cache_save_fail envSaveFail ⟨[], []⟩ ⟨"T", "E", "http://x/y.jpg"⟩ rfl rfl rfl
  exact ⟨by rw [h], c8_flow_zero_amended envSaveFail ⟨[], []⟩ (by simp) (by rw [h])⟩

/-- C9: from a fresh empty cache, one successful resolve of new bytes
creates exactly one record, with id 1 and stored fingerprint the uppercase
hex SHA-256 digest of the bytes, and exactly one file on disk. -/
theorem c9_first_write (env : Env) (meta : ApodMeta)
    (hmeta : env.apodMeta = some meta)
    (hsave : env.saveOk = true) (hins : env.insertOk = true) :
    add_apod_to_cache env (init_apod_cache none) =
      (1, ⟨[⟨1, meta.title, meta.explanation,
            determine_apod_file_path meta.title meta.url,
            pyUpper (sha256hex env.imageData)⟩],
          [(determine_apod_file_path meta.title meta.url, env.imageData)]⟩) := by
  have h0 : get_apod_id_from_db ([] : ImageDB) (sha256hex env.imageData) = 0 := rfl
  have h := @add_apod_to_cache_miss_success env ⟨[], []⟩ meta hmeta h0 hsave hins
  simpa [init_apod_cache, nextId] using h

/-- Witness for C9: the successful first write of bytes `"ABC"`. -/
theorem c9_first_write_witness :
    envFirst.apodMeta = some ⟨"Test", "Explanation", "http://x/a.jpg"⟩ ∧
    envFirst.saveOk = true ∧ envFirst.insertOk = true ∧
    add_apod_to_cache envFirst (init_apod_cache none) =
      (1, ⟨[⟨1, "Test", "Explanation",
            determine_apod_file_path "Test" "http://x/a.jpg",
            pyUpper (sha256hex [65, 66, 67])⟩],
          [(determine_apod_file_path "Test" "http://x/a.jpg", [65, 66, 67])]⟩) :=
  ⟨rfl, rfl, rfl, c9_first_write envFirst ⟨"Test", "Explanation", "http://x/a.jpg"⟩ rfl rfl rfl⟩

set_option maxRecDepth 10000 in
/-- Sanity of the hasher embedding: the FIPS 180-4 test vector — the SHA-256
digest of the bytes of `"abc"`. -/
theorem sha256hex_abc :
    sha256hex [97, 98, 99] =
      "ba7816bf8f01cfea414140de5dae2223b00361a396177a9cb410ff61f20015ad" := by rfl
